import Mathlib

/-
  A verification development for the clar2wasm code-generation handlers in
  src/clar2wasm/src/words/blockinfo.rs, src/clar2wasm/src/words/comparison.rs
  and src/clar2wasm/src/words/buff_to_integer.rs.

  The handlers are embedded shallowly: the walrus instruction-sequence builder
  becomes a list of instructions that handlers append to, the recursive
  traversal driver becomes an explicit function parameter (handlers call back
  into it exactly where the Rust code calls generator.traverse_expr), and the
  Rust Result-with-mutable-builder discipline becomes a record holding the
  builder contents, the generator state and an optional error: instructions
  appended before a failure stay in the builder, exactly as with the
  Rust mutable reference.
-/

/-- Static type signatures of the source language, mirroring the closed set of
variants of clarity TypeSignature that the three handler files inspect
(IntType, UIntType, BoolType, SequenceType(BufferType), SequenceType(StringType
ASCII/UTF8), PrincipalType, OptionalType, ResponseType, SequenceType(ListType),
TupleType, NoType). -/
inductive TypeSignature where
  | int
  | uint
  | bool
  | buffer (n : Nat)
  | stringAscii (n : Nat)
  | stringUtf8 (n : Nat)
  | principal
  | optionalT (t : TypeSignature)
  | responseT (ok : TypeSignature) (err : TypeSignature)
  | listT (maxLen : Nat) (t : TypeSignature)
  | tupleT (fields : List (String × TypeSignature))
  | noType

/-- Error type of the generator, mirroring GeneratorError in wasm_generator.rs
(the two variants the handler files construct). -/
inductive GeneratorError where
  | InternalError (msg : String)
  | TypeError (msg : String)
deriving DecidableEq

/-- Source-language AST nodes, mirroring clarity SymbolicExpression as far as
the handlers inspect it: an atom (a name), an integer literal, or a list of
sub-expressions. -/
inductive SymbolicExpression where
  | atom (s : String)
  | literalInt (n : Int)
  | listE (args : List SymbolicExpression)

/-- Bytecode instructions as the handlers emit them through the walrus
InstrSeqBuilder. i32Const, localGet and call mirror the walrus instructions
appended in the source; reserveScratch and readMem stand for the instruction
groups appended by WasmGenerator::create_call_stack_local (reserve a
zero-initialized scratch slot in linear memory for a value of the given type)
and WasmGenerator::read_from_memory (deserialize the slot back onto the
evaluation stack), which are outside the provided handler sources. -/
inductive Instr where
  | i32Const (n : Int)
  | localGet (l : Nat)
  | call (f : String)
  | reserveScratch (l : Nat) (size : Nat) (ty : TypeSignature)
  | readMem (l : Nat) (offset : Nat) (ty : TypeSignature)

/-- Generator context threaded through every handler, mirroring the fields of
WasmGenerator that the three handler files touch: the literal-memory cursor,
the recorded literals, the per-function local allocation counter, the function
registry, and the expression-to-type map produced by the external type
checker. -/
structure WasmGenerator where
  memOffset : Nat
  literals : List (Nat × String)
  nextLocal : Nat
  funcs : List String
  typeOf : SymbolicExpression → Option TypeSignature

/-- Result of one handler invocation: the builder contents after the call, the
generator state after the call, and the error if the handler failed. A Rust
handler returns Result of unit, but instructions appended to the mutable
builder before the failure point persist; this record keeps that behaviour
observable. -/
structure TravResult where
  builder : List Instr
  gen : WasmGenerator
  err : Option GeneratorError

/-- Type of the recursive traversal driver (WasmGenerator::traverse_expr) as
seen from a handler: it takes the generator, the builder contents and a
sub-expression, and produces the new builder contents, the new generator and
possibly an error. The handlers under verification call it exactly where the
Rust code calls generator.traverse_expr. -/
def TraverseFn : Type :=
  WasmGenerator → List Instr → SymbolicExpression → TravResult

/-- Modelled from the spec: ArgumentsExt::get_name (wasm_generator.rs, not
among the provided sources). Per §7 a malformed argument-list shape is an
InternalError; get_name retrieves argument i and requires it to be a name
atom. -/
def get_name (args : List SymbolicExpression) (i : Nat) :
    Except GeneratorError String :=
  match args.get? i with
  | some (SymbolicExpression.atom s) => Except.ok s
  | some _ => Except.error (GeneratorError.InternalError
      "expected a name argument")
  | none => Except.error (GeneratorError.InternalError
      "missing required argument")

/-- Modelled from the spec: ArgumentsExt::get_expr (wasm_generator.rs, not
among the provided sources). Per §7 a malformed argument-list shape is an
InternalError; get_expr retrieves argument i. -/
def get_expr (args : List SymbolicExpression) (i : Nat) :
    Except GeneratorError SymbolicExpression :=
  match args.get? i with
  | some e => Except.ok e
  | none => Except.error (GeneratorError.InternalError
      "missing required argument")

/-- Modelled from the spec: WasmGenerator::add_string_literal (not among the
provided sources). Per §3 the literal memory region is a monotonically growing
offset cursor; the literal is placed at the current cursor and the cursor
advances by the literal byte length. Returns (offset, byte length) like the
source function. -/
def add_string_literal (g : WasmGenerator) (s : String) :
    (Nat × Nat) × WasmGenerator :=
  ((g.memOffset, s.utf8ByteSize),
   { g with
      memOffset := g.memOffset + s.utf8ByteSize,
      literals := g.literals ++ [(g.memOffset, s)] })

/-- Modelled from the spec: the Value-Layout Calculator (§4.1) is not among
the provided sources. Per §6 the property tables are part of the compiled
contract between generator and host, per §4.3 the scratch slot for a metadata
query matches the statically-known result type — always an optional wrapping
the property's value type — and per §9 the host contract, not the declared
type, governs buffer sizing (the burn header-hash slot is 56 bytes, not 32).
The in-memory size of each property result type is therefore the maximum
result payload size of the §6 table; types outside the host contract of the
metadata queries are not assigned a size by the spec and are mapped to 0. -/
def in_memory_size (t : TypeSignature) : Nat :=
  match t with
  | TypeSignature.optionalT TypeSignature.uint => 40
  | TypeSignature.optionalT (TypeSignature.buffer 32) => 56
  | TypeSignature.optionalT TypeSignature.principal => 174
  | TypeSignature.optionalT (TypeSignature.tupleT
      [("addrs", TypeSignature.listT 2 (TypeSignature.tupleT
          [("hashbytes", TypeSignature.buffer 32),
           ("version", TypeSignature.buffer 1)])),
       ("payout", TypeSignature.uint)]) => 154
  | _ => 0

/-- Modelled from the spec: WasmGenerator::create_call_stack_local (not among
the provided sources). Per §4.3 it reserves a zero-initialized, fixed-size
scratch slot in linear memory sized for the given type, before the host
routine that fills it runs; the slot is addressed through a fresh local.
Returns the local, the new generator and the new builder contents. -/
def create_call_stack_local (g : WasmGenerator) (builder : List Instr)
    (ty : TypeSignature) : Nat × WasmGenerator × List Instr :=
  (g.nextLocal,
   { g with nextLocal := g.nextLocal + 1 },
   builder ++ [Instr.reserveScratch g.nextLocal (in_memory_size ty) ty])

/-- Modelled from the spec: WasmGenerator::read_from_memory (not among the
provided sources). Per §4.3 step (6) it deserializes the scratch slot's
contents back into a stack value per the result type's layout; embedded as one
marker instruction carrying the slot and the type. -/
def read_from_memory (builder : List Instr) (l : Nat) (offset : Nat)
    (ty : TypeSignature) : List Instr :=
  builder ++ [Instr.readMem l offset ty]

/-- Modelled from the spec: WasmGenerator::func_by_name (not among the
provided sources). Per §3 every host routine has a stable name-to-callee
binding; the emitted call instruction carries the routine name, so the callee
is identified by its name. -/
def func_by_name (name : String) : String := name

/-- Modelled from the spec: walrus ModuleFunctions::by_name (external
collaborator, §6(c)): look up a function by its stable two-part name in the
registry; absence is reported to the caller (the handlers turn it into an
InternalError). -/
def funcs_by_name (g : WasmGenerator) (name : String) : Option String :=
  if g.funcs.contains name then some name else none

/-- Lookup of the type attached to an expression by the external type checker,
mirroring WasmGenerator::get_expr_type. -/
def get_expr_type (g : WasmGenerator) (e : SymbolicExpression) :
    Option TypeSignature :=
  g.typeOf e

/-- The compile-time property table of GetBlockInfo::traverse
(blockinfo.rs lines 25-40): property name to (name length, max return size).
none corresponds to the catch-all arm that raises InternalError. -/
def block_info_sizes (s : String) : Option (Int × Int) :=
  match s with
  | "time" => some (4, 40)
  | "header-hash" => some (11, 56)
  | "burnchain-header-hash" => some (21, 56)
  | "id-header-hash" => some (14, 56)
  | "miner-address" => some (13, 174)
  | "block-reward" => some (12, 40)
  | "miner-spend-total" => some (17, 40)
  | "miner-spend-winner" => some (18, 40)
  | _ => none

/-- The compile-time property table of GetBurnBlockInfo::traverse
(blockinfo.rs lines 91-100). -/
def burn_block_info_sizes (s : String) : Option (Int × Int) :=
  match s with
  | "header-hash" => some (11, 56)
  | "pox-addrs" => some (9, 154)
  | _ => none

/-- Embedding of GetBlockInfo::traverse (blockinfo.rs lines 14-70). -/
def GetBlockInfo.traverse (td : TraverseFn) (g : WasmGenerator)
    (builder : List Instr) (expr : SymbolicExpression)
    (args : List SymbolicExpression) : TravResult :=
  match get_name args 0 with
  | Except.error e => ⟨builder, g, some e⟩
  | Except.ok prop_name =>
    match get_expr args 1 with
    | Except.error e => ⟨builder, g, some e⟩
    | Except.ok block =>
      match block_info_sizes prop_name with
      | none => ⟨builder, g, some (GeneratorError.InternalError
          ("GetBlockInfo does not have a property of type " ++ prop_name))⟩
      | some (name_length, return_size) =>
        let lit := add_string_literal g prop_name
        let builder1 := builder ++
          [Instr.i32Const (Int.ofNat lit.1.1), Instr.i32Const name_length]
        let r := td lit.2 builder1 block
        match r.err with
        | some e => ⟨r.builder, r.gen, some e⟩
        | none =>
          match get_expr_type r.gen expr with
          | none => ⟨r.builder, r.gen, some (GeneratorError.TypeError
              "get-block-info? expression must be typed")⟩
          | some return_ty =>
            let c := create_call_stack_local r.gen r.builder return_ty
            let builder2 := c.2.2 ++
              [Instr.localGet c.1, Instr.i32Const return_size,
               Instr.call (func_by_name "stdlib.get_block_info")]
            ⟨read_from_memory builder2 c.1 0 return_ty, c.2.1, none⟩

/-- Embedding of GetBurnBlockInfo::traverse (blockinfo.rs lines 81-132). -/
def GetBurnBlockInfo.traverse (td : TraverseFn) (g : WasmGenerator)
    (builder : List Instr) (expr : SymbolicExpression)
    (args : List SymbolicExpression) : TravResult :=
  match get_name args 0 with
  | Except.error e => ⟨builder, g, some e⟩
  | Except.ok prop_name =>
    match get_expr args 1 with
    | Except.error e => ⟨builder, g, some e⟩
    | Except.ok block =>
      match burn_block_info_sizes prop_name with
      | none => ⟨builder, g, some (GeneratorError.InternalError
          ("GetBurnBlockInfo does not have a property of type " ++ prop_name))⟩
      | some (name_length, return_size) =>
        let lit := add_string_literal g prop_name
        let builder1 := builder ++
          [Instr.i32Const (Int.ofNat lit.1.1), Instr.i32Const name_length]
        let r := td lit.2 builder1 block
        match r.err with
        | some e => ⟨r.builder, r.gen, some e⟩
        | none =>
          match get_expr_type r.gen expr with
          | none => ⟨r.builder, r.gen, some (GeneratorError.TypeError
              "get-burn-block-info? expression must be typed")⟩
          | some return_ty =>
            let c := create_call_stack_local r.gen r.builder return_ty
            let builder2 := c.2.2 ++
              [Instr.localGet c.1, Instr.i32Const return_size,
               Instr.call (func_by_name "stdlib.get_burn_block_info")]
            ⟨read_from_memory builder2 c.1 0 return_ty, c.2.1, none⟩

/-- Embedding of AtBlock::traverse (blockinfo.rs lines 143-166). -/
def AtBlock.traverse (td : TraverseFn) (g : WasmGenerator)
    (builder : List Instr) (_expr : SymbolicExpression)
    (args : List SymbolicExpression) : TravResult :=
  match get_expr args 0 with
  | Except.error e => ⟨builder, g, some e⟩
  | Except.ok block_hash =>
    match get_expr args 1 with
    | Except.error e => ⟨builder, g, some e⟩
    | Except.ok e =>
      let r1 := td g builder block_hash
      match r1.err with
      | some er => ⟨r1.builder, r1.gen, some er⟩
      | none =>
        let b1 := r1.builder ++ [Instr.call (func_by_name "stdlib.enter_at_block")]
        let r2 := td r1.gen b1 e
        match r2.err with
        | some er => ⟨r2.builder, r2.gen, some er⟩
        | none =>
          ⟨r2.builder ++ [Instr.call (func_by_name "stdlib.exit_at_block")],
           r2.gen, none⟩

/-- Embedding of traverse_comparison (comparison.rs lines 7-46). The Rust
function indexes arg_types[0]; the driver never passes an empty operand list,
and the empty case (which would be an out-of-bounds panic in Rust) is mapped
to an InternalError outside the scope of the claims. -/
def traverse_comparison (name : String) (g : WasmGenerator)
    (builder : List Instr) (arg_types : List TypeSignature)
    (_return_type : TypeSignature) : TravResult :=
  match arg_types.head? with
  | none => ⟨builder, g, some (GeneratorError.InternalError
      "arg_types is empty")⟩
  | some ty =>
    let suffix : Option String :=
      match ty with
      | TypeSignature.int => some "int"
      | TypeSignature.uint => some "uint"
      | TypeSignature.stringAscii _ => some "buff"
      | TypeSignature.buffer _ => some "buff"
      | TypeSignature.stringUtf8 _ => some "buff"
      | _ => none
    match suffix with
    | none => ⟨builder, g, some (GeneratorError.TypeError
        "invalid type for comparison")⟩
    | some type_suffix =>
      match funcs_by_name g ("stdlib." ++ name ++ "-" ++ type_suffix) with
      | none => ⟨builder, g, some (GeneratorError.InternalError
          ("function not found: " ++ name ++ "-" ++ type_suffix))⟩
      | some f => ⟨builder ++ [Instr.call f], g, none⟩

/-- Embedding of CmpLess::visit (comparison.rs lines 57-67). -/
def CmpLess.visit (g : WasmGenerator) (builder : List Instr)
    (arg_types : List TypeSignature) (return_type : TypeSignature) :
    TravResult :=
  traverse_comparison "lt" g builder arg_types return_type

/-- Embedding of CmpLeq::visit (comparison.rs lines 78-88). -/
def CmpLeq.visit (g : WasmGenerator) (builder : List Instr)
    (arg_types : List TypeSignature) (return_type : TypeSignature) :
    TravResult :=
  traverse_comparison "le" g builder arg_types return_type

/-- Embedding of CmpGreater::visit (comparison.rs lines 99-109). -/
def CmpGreater.visit (g : WasmGenerator) (builder : List Instr)
    (arg_types : List TypeSignature) (return_type : TypeSignature) :
    TravResult :=
  traverse_comparison "gt" g builder arg_types return_type

/-- Embedding of CmpGeq::visit (comparison.rs lines 120-129). -/
def CmpGeq.visit (g : WasmGenerator) (builder : List Instr)
    (arg_types : List TypeSignature) (return_type : TypeSignature) :
    TravResult :=
  traverse_comparison "ge" g builder arg_types return_type

/-- Embedding of traverse_buffer_to_integer (buff_to_integer.rs lines 6-18). -/
def traverse_buffer_to_integer (name : String) (g : WasmGenerator)
    (builder : List Instr) : TravResult :=
  match funcs_by_name g name with
  | none => ⟨builder, g, some (GeneratorError.InternalError
      ("function not found: " ++ name))⟩
  | some f => ⟨builder ++ [Instr.call f], g, none⟩

/-- Embedding of BuffToUintBe::visit (buff_to_integer.rs lines 29-39). -/
def BuffToUintBe.visit (g : WasmGenerator) (builder : List Instr)
    (_arg_types : List TypeSignature) (_return_type : TypeSignature) :
    TravResult :=
  traverse_buffer_to_integer "stdlib.buff-to-uint-be" g builder

/-- Embedding of BuffToIntBe::visit (buff_to_integer.rs lines 50-62): same
routine as buff-to-uint-be, with the result interpreted as i128 by the
caller. -/
def BuffToIntBe.visit (g : WasmGenerator) (builder : List Instr)
    (_arg_types : List TypeSignature) (_return_type : TypeSignature) :
    TravResult :=
  traverse_buffer_to_integer "stdlib.buff-to-uint-be" g builder

/-- Embedding of BuffToUintLe::visit (buff_to_integer.rs lines 73-83). -/
def BuffToUintLe.visit (g : WasmGenerator) (builder : List Instr)
    (_arg_types : List TypeSignature) (_return_type : TypeSignature) :
    TravResult :=
  traverse_buffer_to_integer "stdlib.buff-to-uint-le" g builder

/-- Embedding of BuffToIntLe::visit (buff_to_integer.rs lines 94-106): same
routine as buff-to-uint-le, with the result interpreted as i128 by the
caller. -/
def BuffToIntLe.visit (g : WasmGenerator) (builder : List Instr)
    (_arg_types : List TypeSignature) (_return_type : TypeSignature) :
    TravResult :=
  traverse_buffer_to_integer "stdlib.buff-to-uint-le" g builder

/-- The §6 property table of the block-metadata family, written from the
spec's words (family, property, name length, max result size), to be compared
with the tables embedded from the source. -/
def spec_block_metadata_table : List (String × Int × Int) :=
  [("time", 4, 40),
   ("header-hash", 11, 56),
   ("burnchain-header-hash", 21, 56),
   ("id-header-hash", 14, 56),
   ("miner-address", 13, 174),
   ("block-reward", 12, 40),
   ("miner-spend-total", 17, 40),
   ("miner-spend-winner", 18, 40)]

/-- The §6 property table of the burn-block-metadata family, written from the
spec's words. -/
def spec_burn_block_metadata_table : List (String × Int × Int) :=
  [("header-hash", 11, 56),
   ("pox-addrs", 9, 154)]

/-- The static result type of a block-metadata property: always an optional
wrapping the property's value type (per the source comments at blockinfo.rs
lines 26-33: time, block-reward, miner-spend-total and miner-spend-winner are
uint; the three hashes are buff 32; miner-address is a principal). -/
def block_info_result_ty (s : String) : Option TypeSignature :=
  match s with
  | "time" => some (TypeSignature.optionalT TypeSignature.uint)
  | "header-hash" => some (TypeSignature.optionalT (TypeSignature.buffer 32))
  | "burnchain-header-hash" =>
      some (TypeSignature.optionalT (TypeSignature.buffer 32))
  | "id-header-hash" => some (TypeSignature.optionalT (TypeSignature.buffer 32))
  | "miner-address" => some (TypeSignature.optionalT TypeSignature.principal)
  | "block-reward" => some (TypeSignature.optionalT TypeSignature.uint)
  | "miner-spend-total" => some (TypeSignature.optionalT TypeSignature.uint)
  | "miner-spend-winner" => some (TypeSignature.optionalT TypeSignature.uint)
  | _ => none

/-- The static result type of a burn-block-metadata property: header-hash is
an optional buff 32 (blockinfo.rs line 92); pox-addrs is an optional tuple of
an addrs list (up to two pox addresses, each a version byte and 32 hash bytes)
and a payout uint, per the shape exercised by the
get_burn_block_info_pox_addrs test (blockinfo.rs lines 370-402). -/
def burn_block_info_result_ty (s : String) : Option TypeSignature :=
  match s with
  | "header-hash" => some (TypeSignature.optionalT (TypeSignature.buffer 32))
  | "pox-addrs" => some (TypeSignature.optionalT (TypeSignature.tupleT
      [("addrs", TypeSignature.listT 2 (TypeSignature.tupleT
          [("hashbytes", TypeSignature.buffer 32),
           ("version", TypeSignature.buffer 1)])),
       ("payout", TypeSignature.uint)]))
  | _ => none

/-- Number of call instructions to routine f in an instruction list. -/
def countCall (f : String) : List Instr → Nat
  | [] => 0
  | Instr.call s :: rest => (if s = f then 1 else 0) + countCall f rest
  | _ :: rest => countCall f rest

/-- The routine names called in an instruction list, in order. -/
def callNames : List Instr → List String
  | [] => []
  | Instr.call s :: rest => s :: callNames rest
  | _ :: rest => callNames rest

/-- A concrete traversal driver that appends one instruction, used to
instantiate the theorems about the handlers at concrete inputs. -/
def tdOne : TraverseFn :=
  fun g b _ => ⟨b ++ [Instr.i32Const 7], g, none⟩

/-- A concrete traversal driver that appends nothing. -/
def tdNop : TraverseFn :=
  fun g b _ => ⟨b, g, none⟩

/-- A concrete generator whose type map assigns every expression the type
optional uint. -/
def gW : WasmGenerator :=
  ⟨0, [], 0, [], fun _ => some (TypeSignature.optionalT TypeSignature.uint)⟩

/-- A concrete generator whose type map assigns every expression the type
optional (buff 32). -/
def gWbuff : WasmGenerator :=
  ⟨0, [], 0, [], fun _ => some (TypeSignature.optionalT (TypeSignature.buffer 32))⟩

/-- A concrete generator whose type map assigns no expression a type. -/
def gNoTy : WasmGenerator :=
  ⟨0, [], 0, [], fun _ => none⟩

/-- A concrete generator whose registry holds the comparison and conversion
routines used by the concrete instantiations. -/
def gCmp : WasmGenerator :=
  ⟨0, [], 0,
   ["stdlib.lt-int", "stdlib.lt-uint", "stdlib.lt-buff",
    "stdlib.buff-to-uint-be", "stdlib.buff-to-uint-le"],
   fun _ => none⟩

/-- A concrete block-identifier operand expression. -/
def eBlock : SymbolicExpression := SymbolicExpression.literalInt 0

/-- A concrete enclosing expression node. -/
def eOuter : SymbolicExpression := SymbolicExpression.atom "outer"

theorem countCall_append (f : String) (l1 l2 : List Instr) :
    countCall f (l1 ++ l2) = countCall f l1 + countCall f l2 := by
  induction l1 with
  | nil => simp [countCall]
  | cons a t ih =>
    cases a <;> simp [countCall, ih] <;> omega

theorem callNames_append (l1 l2 : List Instr) :
    callNames (l1 ++ l2) = callNames l1 ++ callNames l2 := by
  induction l1 with
  | nil => simp [callNames]
  | cons a t ih => cases a <;> simp [callNames, ih]

theorem getBlockInfo_shape
    (td : TraverseFn) (g g1 : WasmGenerator) (b B : List Instr)
    (expr blockE : SymbolicExpression) (rest : List SymbolicExpression)
    (p : String) (l m : Int) (ty : TypeSignature)
    (hsz : block_info_sizes p = some (l, m))
    (htd : td (add_string_literal g p).2
        (b ++ [Instr.i32Const (Int.ofNat g.memOffset), Instr.i32Const l]) blockE
      = ⟨(b ++ [Instr.i32Const (Int.ofNat g.memOffset), Instr.i32Const l]) ++ B,
         g1, none⟩)
    (hty : g1.typeOf expr = some ty) :
    GetBlockInfo.traverse td g b expr
        (SymbolicExpression.atom p :: blockE :: rest) =
      ⟨b ++ [Instr.i32Const (Int.ofNat g.memOffset), Instr.i32Const l] ++ B ++
         [Instr.reserveScratch g1.nextLocal (in_memory_size ty) ty,
          Instr.localGet g1.nextLocal, Instr.i32Const m,
          Instr.call "stdlib.get_block_info",
          Instr.readMem g1.nextLocal 0 ty],
       { g1 with nextLocal := g1.nextLocal + 1 }, none⟩ := by
  simp only [GetBlockInfo.traverse, get_name, get_expr, List.get?, hsz]
  simp only [add_string_literal] at htd ⊢
  rw [htd]
  simp only [get_expr_type, hty, create_call_stack_local, read_from_memory,
    func_by_name]
  simp [List.append_assoc]

theorem getBurnBlockInfo_shape
    (td : TraverseFn) (g g1 : WasmGenerator) (b B : List Instr)
    (expr blockE : SymbolicExpression) (rest : List SymbolicExpression)
    (p : String) (l m : Int) (ty : TypeSignature)
    (hsz : burn_block_info_sizes p = some (l, m))
    (htd : td (add_string_literal g p).2
        (b ++ [Instr.i32Const (Int.ofNat g.memOffset), Instr.i32Const l]) blockE
      = ⟨(b ++ [Instr.i32Const (Int.ofNat g.memOffset), Instr.i32Const l]) ++ B,
         g1, none⟩)
    (hty : g1.typeOf expr = some ty) :
    GetBurnBlockInfo.traverse td g b expr
        (SymbolicExpression.atom p :: blockE :: rest) =
      ⟨b ++ [Instr.i32Const (Int.ofNat g.memOffset), Instr.i32Const l] ++ B ++
         [Instr.reserveScratch g1.nextLocal (in_memory_size ty) ty,
          Instr.localGet g1.nextLocal, Instr.i32Const m,
          Instr.call "stdlib.get_burn_block_info",
          Instr.readMem g1.nextLocal 0 ty],
       { g1 with nextLocal := g1.nextLocal + 1 }, none⟩ := by
  simp only [GetBurnBlockInfo.traverse, get_name, get_expr, List.get?, hsz]
  simp only [add_string_literal] at htd ⊢
  rw [htd]
  simp only [get_expr_type, hty, create_call_stack_local, read_from_memory,
    func_by_name]
  simp [List.append_assoc]

/-- C2: for every at-block expression, the emitted sequence is exactly the
block-identifier operand's instructions, then one call to
stdlib.enter_at_block, then the complete instruction sequence of the wrapped
inner expression, then one call to stdlib.exit_at_block — for any driver
behaviour on the two sub-expressions, hence for any nesting depth or branching
of the inner expression; the call counts show that exactly one enter call and
exactly one exit call are added beyond whatever the operands themselves
emit. -/
theorem atBlock_brackets_inner
    (td : TraverseFn) (g g1 g2 : WasmGenerator) (b B E : List Instr)
    (expr bh inner : SymbolicExpression) (rest : List SymbolicExpression)
    (h1 : td g b bh = ⟨b ++ B, g1, none⟩)
    (h2 : td g1 (b ++ B ++ [Instr.call "stdlib.enter_at_block"]) inner
        = ⟨(b ++ B ++ [Instr.call "stdlib.enter_at_block"]) ++ E, g2, none⟩) :
    AtBlock.traverse td g b expr (bh :: inner :: rest)
      = ⟨b ++ B ++ [Instr.call "stdlib.enter_at_block"] ++ E ++
          [Instr.call "stdlib.exit_at_block"], g2, none⟩
    ∧ countCall "stdlib.enter_at_block"
        (AtBlock.traverse td g b expr (bh :: inner :: rest)).builder
      = countCall "stdlib.enter_at_block" b + countCall "stdlib.enter_at_block" B
        + 1 + countCall "stdlib.enter_at_block" E
    ∧ countCall "stdlib.exit_at_block"
        (AtBlock.traverse td g b expr (bh :: inner :: rest)).builder
      = countCall "stdlib.exit_at_block" b + countCall "stdlib.exit_at_block" B
        + countCall "stdlib.exit_at_block" E + 1 := by
  have hmain : AtBlock.traverse td g b expr (bh :: inner :: rest)
      = ⟨b ++ B ++ [Instr.call "stdlib.enter_at_block"] ++ E ++
          [Instr.call "stdlib.exit_at_block"], g2, none⟩ := by
    simp only [AtBlock.traverse, get_expr, List.get?, func_by_name]
    rw [h1]
    simp only
    rw [h2]
  refine ⟨hmain, ?_, ?_⟩ <;> rw [hmain] <;>
    simp [countCall_append, countCall] <;> omega

/-- Witness for C2: a concrete at-block compilation whose operands each emit
one constant; the result is bracketed by exactly one enter and one exit
call. -/
theorem atBlock_brackets_inner_witness :
    AtBlock.traverse tdOne gW []
        (SymbolicExpression.atom "at") (eBlock :: eOuter :: [])
      = ⟨[Instr.i32Const 7, Instr.call "stdlib.enter_at_block",
          Instr.i32Const 7, Instr.call "stdlib.exit_at_block"], gW, none⟩ := by
  have h := atBlock_brackets_inner tdOne gW gW gW [] [Instr.i32Const 7]
    [Instr.i32Const 7] (SymbolicExpression.atom "at") eBlock eOuter [] rfl rfl
  simpa using h.1

/-- C7: for a metadata-query expression whose property name is not in its
family's table, compilation fails with an InternalError whose message names
the construct and the property, and the builder is left exactly as it was:
no instruction — in particular none referencing a host routine — is
appended. -/
theorem metadata_unknown_property_internal_error
    (p : String) (td : TraverseFn) (g : WasmGenerator) (b : List Instr)
    (expr blockE : SymbolicExpression) (rest : List SymbolicExpression) :
    (block_info_sizes p = none →
      GetBlockInfo.traverse td g b expr
          (SymbolicExpression.atom p :: blockE :: rest)
        = ⟨b, g, some (GeneratorError.InternalError
            ("GetBlockInfo does not have a property of type " ++ p))⟩)
    ∧ (burn_block_info_sizes p = none →
      GetBurnBlockInfo.traverse td g b expr
          (SymbolicExpression.atom p :: blockE :: rest)
        = ⟨b, g, some (GeneratorError.InternalError
            ("GetBurnBlockInfo does not have a property of type " ++ p))⟩) := by
  constructor
  · intro hsz
    simp [GetBlockInfo.traverse, get_name, get_expr, List.get?, hsz]
  · intro hsz
    simp [GetBurnBlockInfo.traverse, get_name, get_expr, List.get?, hsz]

/-- Witness for C7: compiling either family's query with the unknown property
name bogus fails with the InternalError naming the construct and the
property, and leaves the builder empty. -/
theorem metadata_unknown_property_internal_error_witness :
    GetBlockInfo.traverse tdOne gW [] eOuter
        (SymbolicExpression.atom "bogus" :: eBlock :: [])
      = ⟨[], gW, some (GeneratorError.InternalError
          "GetBlockInfo does not have a property of type bogus")⟩
    ∧ GetBurnBlockInfo.traverse tdOne gW [] eOuter
        (SymbolicExpression.atom "bogus" :: eBlock :: [])
      = ⟨[], gW, some (GeneratorError.InternalError
          "GetBurnBlockInfo does not have a property of type bogus")⟩ := by
  have h := metadata_unknown_property_internal_error "bogus" tdOne gW []
    eOuter eBlock []
  exact ⟨h.1 rfl, h.2 rfl⟩

/-- C10: in both metadata-query handlers the property-name check precedes both
the traversal of the block operand and the type lookup: with an unknown
property name the result is the same for any two traversal drivers (the block
operand is never traversed) and is an InternalError for every generator,
including any generator whose type map attaches no type to the expression, so
the InternalError takes precedence over the TypeError. -/
theorem metadata_unknown_property_precedence
    (p : String) (td1 td2 : TraverseFn) (g : WasmGenerator) (b : List Instr)
    (expr blockE : SymbolicExpression) (rest : List SymbolicExpression) :
    (block_info_sizes p = none →
      GetBlockInfo.traverse td1 g b expr
          (SymbolicExpression.atom p :: blockE :: rest)
        = GetBlockInfo.traverse td2 g b expr
            (SymbolicExpression.atom p :: blockE :: rest)
      ∧ (GetBlockInfo.traverse td1 g b expr
            (SymbolicExpression.atom p :: blockE :: rest)).err
        = some (GeneratorError.InternalError
            ("GetBlockInfo does not have a property of type " ++ p)))
    ∧ (burn_block_info_sizes p = none →
      GetBurnBlockInfo.traverse td1 g b expr
          (SymbolicExpression.atom p :: blockE :: rest)
        = GetBurnBlockInfo.traverse td2 g b expr
            (SymbolicExpression.atom p :: blockE :: rest)
      ∧ (GetBurnBlockInfo.traverse td1 g b expr
            (SymbolicExpression.atom p :: blockE :: rest)).err
        = some (GeneratorError.InternalError
            ("GetBurnBlockInfo does not have a property of type " ++ p))) := by
  constructor
  · intro hsz
    constructor <;>
      simp [GetBlockInfo.traverse, get_name, get_expr, List.get?, hsz]
  · intro hsz
    constructor <;>
      simp [GetBurnBlockInfo.traverse, get_name, get_expr, List.get?, hsz]

/-- Witness for C10: with the unknown property bogus and a generator that
attaches no type to any expression, both handlers give the same result under
two different drivers and that result is the InternalError, not the
TypeError. -/
theorem metadata_unknown_property_precedence_witness :
    (GetBlockInfo.traverse tdOne gNoTy [] eOuter
        (SymbolicExpression.atom "bogus" :: eBlock :: [])
      = GetBlockInfo.traverse tdNop gNoTy [] eOuter
          (SymbolicExpression.atom "bogus" :: eBlock :: [])
      ∧ (GetBlockInfo.traverse tdOne gNoTy [] eOuter
            (SymbolicExpression.atom "bogus" :: eBlock :: [])).err
        = some (GeneratorError.InternalError
            "GetBlockInfo does not have a property of type bogus"))
    ∧ (GetBurnBlockInfo.traverse tdOne gNoTy [] eOuter
        (SymbolicExpression.atom "bogus" :: eBlock :: [])
      = GetBurnBlockInfo.traverse tdNop gNoTy [] eOuter
          (SymbolicExpression.atom "bogus" :: eBlock :: [])
      ∧ (GetBurnBlockInfo.traverse tdOne gNoTy [] eOuter
            (SymbolicExpression.atom "bogus" :: eBlock :: [])).err
        = some (GeneratorError.InternalError
            "GetBurnBlockInfo does not have a property of type bogus")) := by
  have h := metadata_unknown_property_precedence "bogus" tdOne tdNop gNoTy []
    eOuter eBlock []
  exact ⟨h.1 rfl, h.2 rfl⟩

/-- C8: for a metadata-query expression with a known property name whose node
carries no resolved type, compilation fails with the TypeError stating that
the expression must be typed — not with an InternalError and not
successfully. -/
theorem metadata_untyped_expression_type_error
    (p : String) (l m : Int) (td : TraverseFn) (g g1 : WasmGenerator)
    (b B : List Instr) (expr blockE : SymbolicExpression)
    (rest : List SymbolicExpression)
    (htd : td (add_string_literal g p).2
        (b ++ [Instr.i32Const (Int.ofNat g.memOffset), Instr.i32Const l]) blockE
      = ⟨(b ++ [Instr.i32Const (Int.ofNat g.memOffset), Instr.i32Const l]) ++ B,
         g1, none⟩)
    (hty : g1.typeOf expr = none) :
    (block_info_sizes p = some (l, m) →
      GetBlockInfo.traverse td g b expr
          (SymbolicExpression.atom p :: blockE :: rest)
        = ⟨(b ++ [Instr.i32Const (Int.ofNat g.memOffset), Instr.i32Const l]) ++ B,
           g1, some (GeneratorError.TypeError
             "get-block-info? expression must be typed")⟩)
    ∧ (burn_block_info_sizes p = some (l, m) →
      GetBurnBlockInfo.traverse td g b expr
          (SymbolicExpression.atom p :: blockE :: rest)
        = ⟨(b ++ [Instr.i32Const (Int.ofNat g.memOffset), Instr.i32Const l]) ++ B,
           g1, some (GeneratorError.TypeError
             "get-burn-block-info? expression must be typed")⟩) := by
  constructor
  · intro hsz
    simp only [GetBlockInfo.traverse, get_name, get_expr, List.get?, hsz]
    simp only [add_string_literal] at htd ⊢
    rw [htd]
    simp [get_expr_type, hty]
  · intro hsz
    simp only [GetBurnBlockInfo.traverse, get_name, get_expr, List.get?, hsz]
    simp only [add_string_literal] at htd ⊢
    rw [htd]
    simp [get_expr_type, hty]

/-- Witness for C8: compiling the time query and the burn pox-addrs query with
a generator that attaches no type fails with the respective TypeError, keeping
the instructions emitted before the failure. -/
theorem metadata_untyped_expression_type_error_witness :
    GetBlockInfo.traverse tdOne gNoTy [] eOuter
        (SymbolicExpression.atom "time" :: eBlock :: [])
      = ⟨[Instr.i32Const 0, Instr.i32Const 4, Instr.i32Const 7],
         (add_string_literal gNoTy "time").2,
         some (GeneratorError.TypeError
           "get-block-info? expression must be typed")⟩
    ∧ GetBurnBlockInfo.traverse tdOne gNoTy [] eOuter
        (SymbolicExpression.atom "pox-addrs" :: eBlock :: [])
      = ⟨[Instr.i32Const 0, Instr.i32Const 9, Instr.i32Const 7],
         (add_string_literal gNoTy "pox-addrs").2,
         some (GeneratorError.TypeError
           "get-burn-block-info? expression must be typed")⟩ := by
  have h1 := metadata_untyped_expression_type_error "time" 4 40 tdOne gNoTy
    (add_string_literal gNoTy "time").2 [] [Instr.i32Const 7] eOuter eBlock []
    rfl rfl
  have h2 := metadata_untyped_expression_type_error "pox-addrs" 9 154 tdOne
    gNoTy (add_string_literal gNoTy "pox-addrs").2 [] [Instr.i32Const 7]
    eOuter eBlock [] rfl rfl
  constructor
  · have := h1.1 rfl
    simpa using this
  · have := h2.2 rfl
    simpa using this

/-- C9: comparison dispatch is a function of the first operand's static type
only: two invocations of traverse_comparison (or of any of the four operator
handlers built on it) whose argument-type lists agree on the first element
produce identical results — the same emitted routine call or the identical
failure — whatever the remaining operand types and the return type are. -/
theorem comparison_dispatch_first_operand_only
    (name : String) (g : WasmGenerator) (b : List Instr) (t : TypeSignature)
    (r1 r2 : List TypeSignature) (rt1 rt2 : TypeSignature) :
    traverse_comparison name g b (t :: r1) rt1
      = traverse_comparison name g b (t :: r2) rt2
    ∧ CmpLess.visit g b (t :: r1) rt1 = CmpLess.visit g b (t :: r2) rt2
    ∧ CmpLeq.visit g b (t :: r1) rt1 = CmpLeq.visit g b (t :: r2) rt2
    ∧ CmpGreater.visit g b (t :: r1) rt1 = CmpGreater.visit g b (t :: r2) rt2
    ∧ CmpGeq.visit g b (t :: r1) rt1 = CmpGeq.visit g b (t :: r2) rt2 :=
  ⟨rfl, rfl, rfl, rfl, rfl⟩

/-- C6: the signed buffer-to-integer conversions route to exactly the host
routine of their unsigned counterpart of the same endianness — the two visit
functions are equal outright — and on success the handler appends exactly the
one call instruction, no sign-interpretation instructions. -/
theorem buff_to_integer_shared_routine
    (g : WasmGenerator) (b : List Instr) (ats : List TypeSignature)
    (rt : TypeSignature) :
    BuffToIntBe.visit g b ats rt = BuffToUintBe.visit g b ats rt
    ∧ BuffToIntLe.visit g b ats rt = BuffToUintLe.visit g b ats rt
    ∧ (g.funcs.contains "stdlib.buff-to-uint-be" = true →
        BuffToIntBe.visit g b ats rt
          = ⟨b ++ [Instr.call "stdlib.buff-to-uint-be"], g, none⟩)
    ∧ (g.funcs.contains "stdlib.buff-to-uint-le" = true →
        BuffToIntLe.visit g b ats rt
          = ⟨b ++ [Instr.call "stdlib.buff-to-uint-le"], g, none⟩) := by
  refine ⟨rfl, rfl, ?_, ?_⟩ <;> intro h
  · have hm : "stdlib.buff-to-uint-be" ∈ g.funcs := by simpa using h
    simp [BuffToIntBe.visit, traverse_buffer_to_integer, funcs_by_name, hm]
  · have hm : "stdlib.buff-to-uint-le" ∈ g.funcs := by simpa using h
    simp [BuffToIntLe.visit, traverse_buffer_to_integer, funcs_by_name, hm]

/-- Witness for C6: with both conversion routines registered, the signed
variants emit exactly the unsigned routine call of their endianness. -/
theorem buff_to_integer_shared_routine_witness :
    BuffToIntBe.visit gCmp [] [] TypeSignature.int
      = ⟨[Instr.call "stdlib.buff-to-uint-be"], gCmp, none⟩
    ∧ BuffToIntLe.visit gCmp [] [] TypeSignature.int
      = ⟨[Instr.call "stdlib.buff-to-uint-le"], gCmp, none⟩ := by
  have h := buff_to_integer_shared_routine gCmp [] [] TypeSignature.int
  exact ⟨by simpa using h.2.2.1 rfl, by simpa using h.2.2.2 rfl⟩

/-- C5: each comparison operator resolves to the base-name routine suffixed
with int for a signed-integer first operand, uint for an unsigned one, and
buff for buffers, ASCII strings and UTF-8 strings alike; any other first
operand type fails with the TypeError invalid type for comparison and appends
nothing — no default routine is selected. The four operator handlers feed the
base names lt, le, gt and ge into the shared dispatch. -/
theorem comparison_suffix_selection
    (name : String) (g : WasmGenerator) (b : List Instr)
    (rest : List TypeSignature) (rt : TypeSignature) :
    (g.funcs.contains ("stdlib." ++ name ++ "-int") = true →
      traverse_comparison name g b (TypeSignature.int :: rest) rt
        = ⟨b ++ [Instr.call ("stdlib." ++ name ++ "-int")], g, none⟩)
    ∧ (g.funcs.contains ("stdlib." ++ name ++ "-uint") = true →
      traverse_comparison name g b (TypeSignature.uint :: rest) rt
        = ⟨b ++ [Instr.call ("stdlib." ++ name ++ "-uint")], g, none⟩)
    ∧ (∀ n, g.funcs.contains ("stdlib." ++ name ++ "-buff") = true →
      traverse_comparison name g b (TypeSignature.buffer n :: rest) rt
        = ⟨b ++ [Instr.call ("stdlib." ++ name ++ "-buff")], g, none⟩)
    ∧ (∀ n, g.funcs.contains ("stdlib." ++ name ++ "-buff") = true →
      traverse_comparison name g b (TypeSignature.stringAscii n :: rest) rt
        = ⟨b ++ [Instr.call ("stdlib." ++ name ++ "-buff")], g, none⟩)
    ∧ (∀ n, g.funcs.contains ("stdlib." ++ name ++ "-buff") = true →
      traverse_comparison name g b (TypeSignature.stringUtf8 n :: rest) rt
        = ⟨b ++ [Instr.call ("stdlib." ++ name ++ "-buff")], g, none⟩)
    ∧ (∀ ty, ty ≠ TypeSignature.int → ty ≠ TypeSignature.uint →
      (∀ n, ty ≠ TypeSignature.buffer n) →
      (∀ n, ty ≠ TypeSignature.stringAscii n) →
      (∀ n, ty ≠ TypeSignature.stringUtf8 n) →
      traverse_comparison name g b (ty :: rest) rt
        = ⟨b, g, some (GeneratorError.TypeError "invalid type for comparison")⟩)
    ∧ (∀ ats, CmpLess.visit g b ats rt = traverse_comparison "lt" g b ats rt)
    ∧ (∀ ats, CmpLeq.visit g b ats rt = traverse_comparison "le" g b ats rt)
    ∧ (∀ ats, CmpGreater.visit g b ats rt = traverse_comparison "gt" g b ats rt)
    ∧ (∀ ats, CmpGeq.visit g b ats rt = traverse_comparison "ge" g b ats rt) := by
  refine ⟨?_, ?_, ?_, ?_, ?_, ?_,
    fun _ => rfl, fun _ => rfl, fun _ => rfl, fun _ => rfl⟩
  · intro h
    have hm : ("stdlib." ++ name ++ "-int") ∈ g.funcs := by simpa using h
    have hs : ("stdlib." ++ name ++ "-" ++ "int")
        = ("stdlib." ++ name ++ "-int") := by simp [String.append_assoc]
    simp [traverse_comparison, funcs_by_name, hs, hm]
  · intro h
    have hm : ("stdlib." ++ name ++ "-uint") ∈ g.funcs := by simpa using h
    have hs : ("stdlib." ++ name ++ "-" ++ "uint")
        = ("stdlib." ++ name ++ "-uint") := by simp [String.append_assoc]
    simp [traverse_comparison, funcs_by_name, hs, hm]
  · intro n h
    have hm : ("stdlib." ++ name ++ "-buff") ∈ g.funcs := by simpa using h
    have hs : ("stdlib." ++ name ++ "-" ++ "buff")
        = ("stdlib." ++ name ++ "-buff") := by simp [String.append_assoc]
    simp [traverse_comparison, funcs_by_name, hs, hm]
  · intro n h
    have hm : ("stdlib." ++ name ++ "-buff") ∈ g.funcs := by simpa using h
    have hs : ("stdlib." ++ name ++ "-" ++ "buff")
        = ("stdlib." ++ name ++ "-buff") := by simp [String.append_assoc]
    simp [traverse_comparison, funcs_by_name, hs, hm]
  · intro n h
    have hm : ("stdlib." ++ name ++ "-buff") ∈ g.funcs := by simpa using h
    have hs : ("stdlib." ++ name ++ "-" ++ "buff")
        = ("stdlib." ++ name ++ "-buff") := by simp [String.append_assoc]
    simp [traverse_comparison, funcs_by_name, hs, hm]
  · intro ty h1 h2 h3 h4 h5
    cases ty with
    | int => exact absurd rfl h1
    | uint => exact absurd rfl h2
    | buffer n => exact absurd rfl (h3 n)
    | stringAscii n => exact absurd rfl (h4 n)
    | stringUtf8 n => exact absurd rfl (h5 n)
    | bool => rfl
    | principal => rfl
    | optionalT t => rfl
    | responseT a c => rfl
    | listT n t => rfl
    | tupleT fs => rfl
    | noType => rfl

/-- Witness for C5: with lt-int, lt-uint and lt-buff registered, the less-than
operator dispatches on the first operand type to the int, uint and buff
routines, and a boolean first operand fails with the TypeError without
emitting anything. -/
theorem comparison_suffix_selection_witness :
    traverse_comparison "lt" gCmp []
        [TypeSignature.int, TypeSignature.int] TypeSignature.bool
      = ⟨[Instr.call "stdlib.lt-int"], gCmp, none⟩
    ∧ traverse_comparison "lt" gCmp []
        [TypeSignature.uint, TypeSignature.uint] TypeSignature.bool
      = ⟨[Instr.call "stdlib.lt-uint"], gCmp, none⟩
    ∧ traverse_comparison "lt" gCmp []
        [TypeSignature.buffer 8] TypeSignature.bool
      = ⟨[Instr.call "stdlib.lt-buff"], gCmp, none⟩
    ∧ traverse_comparison "lt" gCmp []
        [TypeSignature.stringAscii 8] TypeSignature.bool
      = ⟨[Instr.call "stdlib.lt-buff"], gCmp, none⟩
    ∧ traverse_comparison "lt" gCmp []
        [TypeSignature.stringUtf8 8] TypeSignature.bool
      = ⟨[Instr.call "stdlib.lt-buff"], gCmp, none⟩
    ∧ traverse_comparison "lt" gCmp []
        [TypeSignature.bool, TypeSignature.bool] TypeSignature.bool
      = ⟨[], gCmp,
         some (GeneratorError.TypeError "invalid type for comparison")⟩
    ∧ CmpLess.visit gCmp [] [TypeSignature.int] TypeSignature.bool
      = traverse_comparison "lt" gCmp [] [TypeSignature.int]
          TypeSignature.bool := by
  have h1 := (comparison_suffix_selection "lt" gCmp [] [TypeSignature.int]
    TypeSignature.bool).1 rfl
  have h2 := (comparison_suffix_selection "lt" gCmp [] [TypeSignature.uint]
    TypeSignature.bool).2.1 rfl
  have h3 := (comparison_suffix_selection "lt" gCmp [] []
    TypeSignature.bool).2.2.1 8 rfl
  have h4 := (comparison_suffix_selection "lt" gCmp [] []
    TypeSignature.bool).2.2.2.1 8 rfl
  have h5 := (comparison_suffix_selection "lt" gCmp [] []
    TypeSignature.bool).2.2.2.2.1 8 rfl
  have h6 := (comparison_suffix_selection "lt" gCmp [] [TypeSignature.bool]
    TypeSignature.bool).2.2.2.2.2.1 TypeSignature.bool
    (fun hh => nomatch hh) (fun hh => nomatch hh) (fun _ hh => nomatch hh)
    (fun _ hh => nomatch hh) (fun _ hh => nomatch hh)
  have h7 := (comparison_suffix_selection "lt" gCmp [] [TypeSignature.int]
    TypeSignature.bool).2.2.2.2.2.2.1 [TypeSignature.int]
  exact ⟨h1, h2, h3, h4, h5, h6, h7⟩

/-- C4: a successfully compiled metadata-query expression of either family
emits, in this exact order: (1) the property-name literal's memory offset and
byte length as i32 immediates, (2) the instructions of the block-identifier
operand, (3) the reservation of the zero-initialized scratch slot typed by the
whole expression's static result type, (4) the slot's offset (through its
local) and its maximum size, (5) the single call to the family's host routine,
(6) the deserialization of the slot back to a stack value per the result
type's layout. -/
theorem metadata_emission_order
    (td : TraverseFn) (g g1 : WasmGenerator) (b B : List Instr)
    (expr blockE : SymbolicExpression) (rest : List SymbolicExpression)
    (p : String) (l m : Int) (ty : TypeSignature)
    (htd : td (add_string_literal g p).2
        (b ++ [Instr.i32Const (Int.ofNat g.memOffset), Instr.i32Const l]) blockE
      = ⟨(b ++ [Instr.i32Const (Int.ofNat g.memOffset), Instr.i32Const l]) ++ B,
         g1, none⟩)
    (hty : g1.typeOf expr = some ty) :
    (block_info_sizes p = some (l, m) →
      GetBlockInfo.traverse td g b expr
          (SymbolicExpression.atom p :: blockE :: rest)
        = ⟨b ++ [Instr.i32Const (Int.ofNat g.memOffset), Instr.i32Const l] ++ B
            ++ [Instr.reserveScratch g1.nextLocal (in_memory_size ty) ty,
                Instr.localGet g1.nextLocal, Instr.i32Const m,
                Instr.call "stdlib.get_block_info",
                Instr.readMem g1.nextLocal 0 ty],
           { g1 with nextLocal := g1.nextLocal + 1 }, none⟩)
    ∧ (burn_block_info_sizes p = some (l, m) →
      GetBurnBlockInfo.traverse td g b expr
          (SymbolicExpression.atom p :: blockE :: rest)
        = ⟨b ++ [Instr.i32Const (Int.ofNat g.memOffset), Instr.i32Const l] ++ B
            ++ [Instr.reserveScratch g1.nextLocal (in_memory_size ty) ty,
                Instr.localGet g1.nextLocal, Instr.i32Const m,
                Instr.call "stdlib.get_burn_block_info",
                Instr.readMem g1.nextLocal 0 ty],
           { g1 with nextLocal := g1.nextLocal + 1 }, none⟩) :=
  ⟨fun hsz =>
    getBlockInfo_shape td g g1 b B expr blockE rest p l m ty hsz htd hty,
   fun hsz =>
    getBurnBlockInfo_shape td g g1 b B expr blockE rest p l m ty hsz htd hty⟩

/-- Witness for C4: the header-hash property, present in both family tables
with immediates (11, 56), compiled with a driver that emits one constant for
the block operand, yields the six-phase sequence for both families. -/
theorem metadata_emission_order_witness :
    (GetBlockInfo.traverse tdOne gWbuff [] eOuter
        (SymbolicExpression.atom "header-hash" :: eBlock :: [])).builder
      = [Instr.i32Const 0, Instr.i32Const 11, Instr.i32Const 7,
         Instr.reserveScratch 0 56
           (TypeSignature.optionalT (TypeSignature.buffer 32)),
         Instr.localGet 0, Instr.i32Const 56,
         Instr.call "stdlib.get_block_info",
         Instr.readMem 0 0 (TypeSignature.optionalT (TypeSignature.buffer 32))]
    ∧ (GetBurnBlockInfo.traverse tdOne gWbuff [] eOuter
        (SymbolicExpression.atom "header-hash" :: eBlock :: [])).builder
      = [Instr.i32Const 0, Instr.i32Const 11, Instr.i32Const 7,
         Instr.reserveScratch 0 56
           (TypeSignature.optionalT (TypeSignature.buffer 32)),
         Instr.localGet 0, Instr.i32Const 56,
         Instr.call "stdlib.get_burn_block_info",
         Instr.readMem 0 0
           (TypeSignature.optionalT (TypeSignature.buffer 32))] := by
  have h := metadata_emission_order tdOne gWbuff
    (add_string_literal gWbuff "header-hash").2 [] [Instr.i32Const 7]
    eOuter eBlock [] "header-hash" 11 56
    (TypeSignature.optionalT (TypeSignature.buffer 32)) rfl rfl
  constructor
  · rw [h.1 rfl]
    rfl
  · rw [h.2 rfl]
    rfl

theorem spec_block_table_sizes :
    ∀ r ∈ spec_block_metadata_table, block_info_sizes r.1 = some r.2 := by
  intro r hr
  fin_cases hr <;> rfl

theorem spec_burn_table_sizes :
    ∀ r ∈ spec_burn_block_metadata_table,
      burn_block_info_sizes r.1 = some r.2 := by
  intro r hr
  fin_cases hr <;> rfl

theorem spec_block_table_lengths :
    ∀ r ∈ spec_block_metadata_table,
      Int.ofNat r.1.utf8ByteSize = r.2.1 := by
  intro r hr
  fin_cases hr <;> decide

theorem spec_burn_table_lengths :
    ∀ r ∈ spec_burn_block_metadata_table,
      Int.ofNat r.1.utf8ByteSize = r.2.1 := by
  intro r hr
  fin_cases hr <;> decide

theorem spec_block_table_result_size :
    ∀ r ∈ spec_block_metadata_table,
      ∀ t, block_info_result_ty r.1 = some t →
        r.2.2 ≤ Int.ofNat (in_memory_size t) := by
  intro r hr
  fin_cases hr <;>
    (intro t ht; injection ht with h2; subst h2; decide)

theorem spec_burn_table_result_size :
    ∀ r ∈ spec_burn_block_metadata_table,
      ∀ t, burn_block_info_result_ty r.1 = some t →
        r.2.2 ≤ Int.ofNat (in_memory_size t) := by
  intro r hr
  fin_cases hr <;>
    (intro t ht; injection ht with h2; subst h2; decide)

/-- C1: for every property row of the §6 tables, the table embedded from the
source agrees with the spec row, the property-name literal has exactly the
stated byte length, and compiling the metadata query emits the stated (name
length, max result size) immediates together with exactly one host-routine
call, which names stdlib.get_block_info for the block-metadata family and
stdlib.get_burn_block_info for the burn-block-metadata family: the
instructions the handler itself adds around the block operand contain that one
call and no other. -/
theorem metadata_table_immediates
    (p : String) (l m : Int) :
    ((p, l, m) ∈ spec_block_metadata_table →
      block_info_sizes p = some (l, m)
      ∧ Int.ofNat p.utf8ByteSize = l
      ∧ ∀ (td : TraverseFn) (g g1 : WasmGenerator) (b B : List Instr)
          (expr blockE : SymbolicExpression) (rest : List SymbolicExpression)
          (ty : TypeSignature),
        td (add_string_literal g p).2
            (b ++ [Instr.i32Const (Int.ofNat g.memOffset), Instr.i32Const l])
            blockE
          = ⟨(b ++ [Instr.i32Const (Int.ofNat g.memOffset), Instr.i32Const l])
              ++ B, g1, none⟩ →
        g1.typeOf expr = some ty →
        GetBlockInfo.traverse td g b expr
            (SymbolicExpression.atom p :: blockE :: rest)
          = ⟨b ++ [Instr.i32Const (Int.ofNat g.memOffset), Instr.i32Const l]
              ++ B
              ++ [Instr.reserveScratch g1.nextLocal (in_memory_size ty) ty,
                  Instr.localGet g1.nextLocal, Instr.i32Const m,
                  Instr.call "stdlib.get_block_info",
                  Instr.readMem g1.nextLocal 0 ty],
             { g1 with nextLocal := g1.nextLocal + 1 }, none⟩
        ∧ callNames
            ([Instr.i32Const (Int.ofNat g.memOffset), Instr.i32Const l]
              ++ [Instr.reserveScratch g1.nextLocal (in_memory_size ty) ty,
                  Instr.localGet g1.nextLocal, Instr.i32Const m,
                  Instr.call "stdlib.get_block_info",
                  Instr.readMem g1.nextLocal 0 ty])
          = ["stdlib.get_block_info"])
    ∧ ((p, l, m) ∈ spec_burn_block_metadata_table →
      burn_block_info_sizes p = some (l, m)
      ∧ Int.ofNat p.utf8ByteSize = l
      ∧ ∀ (td : TraverseFn) (g g1 : WasmGenerator) (b B : List Instr)
          (expr blockE : SymbolicExpression) (rest : List SymbolicExpression)
          (ty : TypeSignature),
        td (add_string_literal g p).2
            (b ++ [Instr.i32Const (Int.ofNat g.memOffset), Instr.i32Const l])
            blockE
          = ⟨(b ++ [Instr.i32Const (Int.ofNat g.memOffset), Instr.i32Const l])
              ++ B, g1, none⟩ →
        g1.typeOf expr = some ty →
        GetBurnBlockInfo.traverse td g b expr
            (SymbolicExpression.atom p :: blockE :: rest)
          = ⟨b ++ [Instr.i32Const (Int.ofNat g.memOffset), Instr.i32Const l]
              ++ B
              ++ [Instr.reserveScratch g1.nextLocal (in_memory_size ty) ty,
                  Instr.localGet g1.nextLocal, Instr.i32Const m,
                  Instr.call "stdlib.get_burn_block_info",
                  Instr.readMem g1.nextLocal 0 ty],
             { g1 with nextLocal := g1.nextLocal + 1 }, none⟩
        ∧ callNames
            ([Instr.i32Const (Int.ofNat g.memOffset), Instr.i32Const l]
              ++ [Instr.reserveScratch g1.nextLocal (in_memory_size ty) ty,
                  Instr.localGet g1.nextLocal, Instr.i32Const m,
                  Instr.call "stdlib.get_burn_block_info",
                  Instr.readMem g1.nextLocal 0 ty])
          = ["stdlib.get_burn_block_info"]) := by
  constructor
  · intro hmem
    have hsz : block_info_sizes p = some (l, m) :=
      spec_block_table_sizes (p, l, m) hmem
    exact ⟨hsz, spec_block_table_lengths (p, l, m) hmem,
      fun td g g1 b B expr blockE rest ty htd hty =>
        ⟨getBlockInfo_shape td g g1 b B expr blockE rest p l m ty hsz htd hty,
         rfl⟩⟩
  · intro hmem
    have hsz : burn_block_info_sizes p = some (l, m) :=
      spec_burn_table_sizes (p, l, m) hmem
    exact ⟨hsz, spec_burn_table_lengths (p, l, m) hmem,
      fun td g g1 b B expr blockE rest ty htd hty =>
        ⟨getBurnBlockInfo_shape td g g1 b B expr blockE rest p l m ty hsz htd
           hty, rfl⟩⟩

/-- Witness for C1: the header-hash row of both tables, compiled concretely;
the immediates are (11, 56) and the single host call names the family
routine. -/
theorem metadata_table_immediates_witness :
    block_info_sizes "header-hash" = some (11, 56)
    ∧ burn_block_info_sizes "header-hash" = some (11, 56)
    ∧ Int.ofNat ("header-hash" : String).utf8ByteSize = 11
    ∧ (GetBlockInfo.traverse tdOne gWbuff [] eOuter
        (SymbolicExpression.atom "header-hash" :: eBlock :: [])).builder
      = [Instr.i32Const 0, Instr.i32Const 11, Instr.i32Const 7,
         Instr.reserveScratch 0 56
           (TypeSignature.optionalT (TypeSignature.buffer 32)),
         Instr.localGet 0, Instr.i32Const 56,
         Instr.call "stdlib.get_block_info",
         Instr.readMem 0 0
           (TypeSignature.optionalT (TypeSignature.buffer 32))]
    ∧ callNames
        [Instr.i32Const 0, Instr.i32Const 11,
         Instr.reserveScratch 0 56
           (TypeSignature.optionalT (TypeSignature.buffer 32)),
         Instr.localGet 0, Instr.i32Const 56,
         Instr.call "stdlib.get_block_info",
         Instr.readMem 0 0
           (TypeSignature.optionalT (TypeSignature.buffer 32))]
      = ["stdlib.get_block_info"] := by
  have hb := (metadata_table_immediates "header-hash" 11 56).1 (by decide)
  have hu := (metadata_table_immediates "header-hash" 11 56).2 (by decide)
  have h4 := hb.2.2 tdOne gWbuff (add_string_literal gWbuff "header-hash").2
    [] [Instr.i32Const 7] eOuter eBlock []
    (TypeSignature.optionalT (TypeSignature.buffer 32)) rfl rfl
  refine ⟨hb.1, hu.1, hb.2.1, ?_, h4.2⟩
  rw [h4.1]
  rfl

/-- C3: for every property of the §6 tables, the scratch slot reserved for
the host routine's result — sized by the whole expression's static result
type, the optional wrapping the property's value type — has byte size at
least the table's stated maximum result size, the reservation instruction
precedes the host call in the emitted sequence, and the maximum length pushed
to the host just before the call is exactly the table constant. -/
theorem metadata_scratch_size_sufficient
    (p : String) (l m : Int) :
    ((p, l, m) ∈ spec_block_metadata_table →
      ∀ ty, block_info_result_ty p = some ty →
      m ≤ Int.ofNat (in_memory_size ty)
      ∧ ∀ (td : TraverseFn) (g g1 : WasmGenerator) (b B : List Instr)
          (expr blockE : SymbolicExpression) (rest : List SymbolicExpression),
        td (add_string_literal g p).2
            (b ++ [Instr.i32Const (Int.ofNat g.memOffset), Instr.i32Const l])
            blockE
          = ⟨(b ++ [Instr.i32Const (Int.ofNat g.memOffset), Instr.i32Const l])
              ++ B, g1, none⟩ →
        g1.typeOf expr = some ty →
        GetBlockInfo.traverse td g b expr
            (SymbolicExpression.atom p :: blockE :: rest)
          = ⟨b ++ [Instr.i32Const (Int.ofNat g.memOffset), Instr.i32Const l]
              ++ B
              ++ [Instr.reserveScratch g1.nextLocal (in_memory_size ty) ty,
                  Instr.localGet g1.nextLocal, Instr.i32Const m,
                  Instr.call "stdlib.get_block_info",
                  Instr.readMem g1.nextLocal 0 ty],
             { g1 with nextLocal := g1.nextLocal + 1 }, none⟩)
    ∧ ((p, l, m) ∈ spec_burn_block_metadata_table →
      ∀ ty, burn_block_info_result_ty p = some ty →
      m ≤ Int.ofNat (in_memory_size ty)
      ∧ ∀ (td : TraverseFn) (g g1 : WasmGenerator) (b B : List Instr)
          (expr blockE : SymbolicExpression) (rest : List SymbolicExpression),
        td (add_string_literal g p).2
            (b ++ [Instr.i32Const (Int.ofNat g.memOffset), Instr.i32Const l])
            blockE
          = ⟨(b ++ [Instr.i32Const (Int.ofNat g.memOffset), Instr.i32Const l])
              ++ B, g1, none⟩ →
        g1.typeOf expr = some ty →
        GetBurnBlockInfo.traverse td g b expr
            (SymbolicExpression.atom p :: blockE :: rest)
          = ⟨b ++ [Instr.i32Const (Int.ofNat g.memOffset), Instr.i32Const l]
              ++ B
              ++ [Instr.reserveScratch g1.nextLocal (in_memory_size ty) ty,
                  Instr.localGet g1.nextLocal, Instr.i32Const m,
                  Instr.call "stdlib.get_burn_block_info",
                  Instr.readMem g1.nextLocal 0 ty],
             { g1 with nextLocal := g1.nextLocal + 1 }, none⟩) := by
  constructor
  · intro hmem ty hres
    have hsz : block_info_sizes p = some (l, m) :=
      spec_block_table_sizes (p, l, m) hmem
    exact ⟨spec_block_table_result_size (p, l, m) hmem ty hres,
      fun td g g1 b B expr blockE rest htd hty =>
        getBlockInfo_shape td g g1 b B expr blockE rest p l m ty hsz htd hty⟩
  · intro hmem ty hres
    have hsz : burn_block_info_sizes p = some (l, m) :=
      spec_burn_table_sizes (p, l, m) hmem
    exact ⟨spec_burn_table_result_size (p, l, m) hmem ty hres,
      fun td g g1 b B expr blockE rest htd hty =>
        getBurnBlockInfo_shape td g g1 b B expr blockE rest p l m ty hsz htd
          hty⟩

/-- Witness for C3: the header-hash property of both families has result type
optional (buff 32), whose modelled slot size 56 meets the table maximum 56,
and the concrete compilation reserves the slot before the call and pushes 56
as the buffer's maximum length. -/
theorem metadata_scratch_size_sufficient_witness :
    (56 : Int) ≤ Int.ofNat (in_memory_size
      (TypeSignature.optionalT (TypeSignature.buffer 32)))
    ∧ (GetBlockInfo.traverse tdOne gWbuff [] eOuter
        (SymbolicExpression.atom "header-hash" :: eBlock :: [])).builder
      = [Instr.i32Const 0, Instr.i32Const 11, Instr.i32Const 7,
         Instr.reserveScratch 0 56
           (TypeSignature.optionalT (TypeSignature.buffer 32)),
         Instr.localGet 0, Instr.i32Const 56,
         Instr.call "stdlib.get_block_info",
         Instr.readMem 0 0
           (TypeSignature.optionalT (TypeSignature.buffer 32))]
    ∧ (GetBurnBlockInfo.traverse tdOne gWbuff [] eOuter
        (SymbolicExpression.atom "header-hash" :: eBlock :: [])).builder
      = [Instr.i32Const 0, Instr.i32Const 11, Instr.i32Const 7,
         Instr.reserveScratch 0 56
           (TypeSignature.optionalT (TypeSignature.buffer 32)),
         Instr.localGet 0, Instr.i32Const 56,
         Instr.call "stdlib.get_burn_block_info",
         Instr.readMem 0 0
           (TypeSignature.optionalT (TypeSignature.buffer 32))] := by
  have hb := (metadata_scratch_size_sufficient "header-hash" 11 56).1
    (by decide) (TypeSignature.optionalT (TypeSignature.buffer 32)) rfl
  have hu := (metadata_scratch_size_sufficient "header-hash" 11 56).2
    (by decide) (TypeSignature.optionalT (TypeSignature.buffer 32)) rfl
  refine ⟨hb.1, ?_, ?_⟩
  · rw [hb.2 tdOne gWbuff (add_string_literal gWbuff "header-hash").2 []
      [Instr.i32Const 7] eOuter eBlock [] rfl rfl]
    rfl
  · rw [hu.2 tdOne gWbuff (add_string_literal gWbuff "header-hash").2 []
      [Instr.i32Const 7] eOuter eBlock [] rfl rfl]
    rfl
